import Mathlib

/-!
Shallow embedding of src/ortho/OrthomclToolbox.py (TriFusion).

Python strings are modelled as List Char; the Python string operations used
by the source (str.split(sep), str.strip(), str.split() on whitespace,
str.count(sub), str(list) rendering) are embedded below, faithful to CPython
semantics.  str(list) is modelled for element strings that contain no quote,
backslash or non-printable character (repr then wraps the string in single
quotes), which covers every input appearing in the claims.  Python set
iteration order is unspecified; we fix the first-occurrence order of the
species codes as the canonical order.  No fact proved below depends on that
order: dictionaries are only compared through lookup.  Exceptions are
modelled with Except; mutation of a shared Cluster object (Python
references) is modelled by keeping filtered_groups as a list of indices
into groups.
-/

namespace Orthomcl

/-- Python whitespace characters recognised by str.strip and str.split(). -/
def pyIsSpace (c : Char) : Bool :=
  c = ' ' || c = '\t' || c = '\n' || c = '\r' || c = Char.ofNat 11 || c = Char.ofNat 12

/-- Python str.strip(): drop leading and trailing whitespace. -/
def pyStrip (s : List Char) : List Char :=
  ((s.dropWhile pyIsSpace).reverse.dropWhile pyIsSpace).reverse

/-- Python str.split(sep) for a one-character separator: split on every
occurrence, keeping empty fields; the result is never empty. -/
def pySplit (sep : Char) : List Char → List (List Char)
  | [] => [[]]
  | a :: s =>
    let r := pySplit sep s
    if a = sep then [] :: r
    else (a :: r.headD []) :: r.tail

/-- Auxiliary for pySplitWs: acc holds the current token reversed. -/
def pySplitWsAux : List Char → List Char → List (List Char)
  | [], acc => if acc = [] then [] else [acc.reverse]
  | c :: cs, acc =>
    if pyIsSpace c then
      if acc = [] then pySplitWsAux cs [] else acc.reverse :: pySplitWsAux cs []
    else pySplitWsAux cs (c :: acc)

/-- Python str.split() with no argument: split on whitespace runs,
discarding empty tokens. -/
def pySplitWs (s : List Char) : List (List Char) :=
  pySplitWsAux s []

/-- Auxiliary for pyCount: non-overlapping left-to-right scan for a
nonempty sub.  The first argument is fuel (structural recursion, so that
the kernel can evaluate concrete instances); every step consumes at least
one character, so fuel equal to the length of the scanned string never
runs out. -/
def pyCountGo (sub : List Char) : Nat → List Char → Nat
  | 0, _ => 0
  | _, [] => 0
  | fuel + 1, c :: cs =>
    if List.isPrefixOf sub (c :: cs) then 1 + pyCountGo sub fuel (cs.drop (sub.length - 1))
    else pyCountGo sub fuel cs

/-- Python str.count(sub): number of non-overlapping occurrences of sub in s
(s.length + 1 when sub is empty, as in CPython). -/
def pyCount (s sub : List Char) : Nat :=
  if sub = [] then s.length + 1 else pyCountGo sub s.length s

/-- repr of a Python string, for strings without quotes, backslashes or
non-printable characters: wrap in single quotes (Char.ofNat 39). -/
def pyReprStr (s : List Char) : List Char :=
  Char.ofNat 39 :: (s ++ [Char.ofNat 39])

/-- str(list-of-strings) in Python: elements repr'd, joined by comma-space,
wrapped in square brackets. -/
def pyStrList (l : List (List Char)) : List Char :=
  '[' :: (List.intercalate [',', ' '] (l.map pyReprStr) ++ [']'])

/-- field.split("|")[0]: the species code of a sequence identifier — the
text up to (not including) the first bar, or the whole identifier. -/
def spCode (sid : List Char) : List Char :=
  sid.takeWhile (fun c => c ≠ '|')

/-- First-occurrence deduplication (canonical iteration order chosen for the
Python set of species codes). -/
def firstSeenAux {α : Type} [DecidableEq α] (seen : List α) : List α → List α
  | [] => []
  | a :: l => if seen.contains a then firstSeenAux seen l else a :: firstSeenAux (a :: seen) l

/-- Distinct elements of a list in order of first occurrence. -/
def firstSeen {α : Type} [DecidableEq α] (l : List α) : List α :=
  firstSeenAux [] l

/-- Python max() over a list of naturals: None (ValueError) on the empty
list. -/
def listMax : List Nat → Option Nat
  | [] => none
  | a :: l => some (l.foldl Nat.max a)

/-- Python truthiness of an Option Bool compliance flag: None and False are
falsy. -/
def pyFlag : Option Bool → Bool
  | some b => b
  | none => false

/-- Python truthiness of an optional integer threshold: None and 0 are
falsy. -/
def pyTruthy : Option Int → Bool
  | some n => decide (n ≠ 0)
  | none => false

/-- Cluster of the OrthoMCL groups file (class Cluster).  Compliance flags
are tri-state: none models Python None (never filtered). -/
structure Cluster where
  name : List Char
  sequences : List (List Char)
  species_frequency : List (List Char × Nat)
  gene_compliant : Option Bool
  species_compliant : Option Bool
deriving DecidableEq

/-- Cluster.parse_string.  fields = line.split(":"); name = fields[0].strip();
sequences = fields[1].strip().split().  Accessing fields[1] raises IndexError
(modelled as none) exactly when the line has no colon.  species_frequency
maps each distinct species code to str(self.sequences).count(code) — the
substring count in the Python rendering of the sequences list, exactly as
the source computes it. -/
def parse_string (s : List Char) : Option Cluster :=
  match pySplit ':' s with
  | f0 :: f1 :: _ =>
    let sequences := pySplitWs (pyStrip f1)
    let sl := firstSeen (sequences.map spCode)
    some { name := pyStrip f0,
           sequences := sequences,
           species_frequency := sl.map (fun sp => (sp, pyCount (pyStrList sequences) sp)),
           gene_compliant := none,
           species_compliant := none }
  | _ => none

/-- Lookup in the species_frequency dictionary (keys are distinct). -/
def lookupFreq (m : List (List Char × Nat)) (k : List Char) : Option Nat :=
  (m.find? (fun p => p.1 == k)).map (fun p => p.2)

/-- The state update performed by Cluster.apply_filter: species_compliant is
set first (len(species_frequency) >= species_threshold); gene_compliant is
set only if max() does not raise, i.e. only when species_frequency is
nonempty. -/
def applyFilterState (c : Cluster) (gt st : Int) : Cluster :=
  let c1 := { c with species_compliant := some (decide (st ≤ (c.species_frequency.length : Int))) }
  match listMax (c.species_frequency.map (fun p => p.2)) with
  | none => c1
  | some m => { c1 with gene_compliant := some (decide ((m : Int) ≤ gt)) }

/-- Cluster.apply_filter.  On a cluster with empty species_frequency, max()
raises ValueError after species_compliant has already been assigned: the
error carries the mutated-so-far cluster state. -/
def apply_filter (c : Cluster) (gt st : Int) : Except Cluster Cluster :=
  if c.species_frequency.isEmpty then .error (applyFilterState c gt st)
  else .ok (applyFilterState c gt st)

/-- class Group.  filtered_groups holds indices into groups, modelling the
Python list of references to the very Cluster objects held in groups (so a
mutation through apply_filter is visible through both lists). -/
structure Group where
  gene_threshold : Option Int
  species_threshold : Option Int
  groups : List Cluster
  filtered_groups : List Nat
  species_list : List (List Char)
deriving DecidableEq

/-- One iteration of Group.__parse_groups: parse the line (IndexError when
no colon aborts construction), append the cluster, extend species_list with
unseen species codes, and — only if both thresholds are truthy (non-None and
nonzero) — run apply_filter (a ValueError from max() aborts construction)
and append the index of a doubly compliant cluster to filtered_groups. -/
def addLine (g : Group) (line : List Char) : Except Unit Group :=
  match parse_string line with
  | none => .error ()
  | some c0 =>
    let sl := g.species_list ++
      (c0.species_frequency.map (fun p => p.1)).filter (fun sp => ¬ g.species_list.contains sp)
    if pyTruthy g.species_threshold && pyTruthy g.gene_threshold then
      match apply_filter c0 (g.gene_threshold.getD 0) (g.species_threshold.getD 0) with
      | .error _ => .error ()
      | .ok c1 =>
        if pyFlag c1.species_compliant && pyFlag c1.gene_compliant then
          .ok { g with groups := g.groups ++ [c1], species_list := sl,
                       filtered_groups := g.filtered_groups ++ [g.groups.length] }
        else
          .ok { g with groups := g.groups ++ [c1], species_list := sl }
    else
      .ok { g with groups := g.groups ++ [c0], species_list := sl }

/-- Group construction (__init__ plus __parse_groups) from the list of lines
of the groups file. -/
def mkGroup (lines : List (List Char)) (gene_threshold species_threshold : Option Int) :
    Except Unit Group :=
  List.foldlM addLine
    { gene_threshold := gene_threshold, species_threshold := species_threshold,
      groups := [], filtered_groups := [], species_list := [] } lines

/-- The clusters referenced by filtered_groups, in order. -/
def filteredView (g : Group) : List Cluster :=
  g.filtered_groups.filterMap (fun i => g.groups[i]?)

/-- Whether the cluster at index i exists and has both compliance flags
truthy. -/
def bothCompliantIdx (g : Group) (i : Nat) : Bool :=
  match g.groups[i]? with
  | some c => pyFlag c.species_compliant && pyFlag c.gene_compliant
  | none => false

/-- An operation on an existing Group that can change compliance state:
calling apply_filter on the i-th cluster (the mutation is shared by groups
and filtered_groups, which alias the same object), or
Group.update_filtered_group. -/
inductive GOp where
  | applyFilter (i : Nat) (gene_threshold species_threshold : Int)
  | updateFiltered
deriving DecidableEq

/-- State transition of one GOp.  applyFilter on an out-of-range index is a
no-op (in Python there is no such cluster to call the method on).  The state
reached is the post-mutation state even when apply_filter raises. -/
def gstep (g : Group) : GOp → Group
  | .applyFilter i gt st =>
    match g.groups[i]? with
    | none => g
    | some c => { g with groups := g.groups.set i (applyFilterState c gt st) }
  | .updateFiltered =>
    { g with filtered_groups := (List.range g.groups.length).filter (fun i => bothCompliantIdx g i) }

/-- The output line written for one cluster: "name: id1 id2 ... idN". -/
def fmtLine (c : Cluster) : List Char :=
  c.name ++ (':' :: ' ' :: List.intercalate [' '] c.sequences)

/-- One loop iteration of Group.export_filtered_group: the accumulator is
(lines written, final_orthologs, sp_compliant, gene_compliant). -/
def exportStep (acc : List (List Char) × Nat × Nat × Nat) (c : Cluster) :
    List (List Char) × Nat × Nat × Nat :=
  let both := pyFlag c.species_compliant && pyFlag c.gene_compliant
  ((if both then acc.1 ++ [fmtLine c] else acc.1),
   (if both then acc.2.1 + 1 else acc.2.1),
   (if pyFlag c.species_compliant then acc.2.2.1 + 1 else acc.2.2.1),
   (if pyFlag c.gene_compliant then acc.2.2.2 + 1 else acc.2.2.2))

/-- Group.export_filtered_group.  Raises OrthoGroupException (modelled as
error) when filtered_groups is empty; otherwise returns the list of written
lines and, when get_stats, the tuple (all_orthologs, sp_compliant,
gene_compliant, final_orthologs).  The function reads but never writes Group
state. -/
def export_filtered_group (g : Group) (get_stats : Bool) :
    Except Unit (List (List Char) × Option (Nat × Nat × Nat × Nat)) :=
  if g.filtered_groups.isEmpty then .error ()
  else
    let r := (filteredView g).foldl exportStep ([], 0, 0, 0)
    .ok (r.1, if get_stats then some (g.groups.length, r.2.2.1, r.2.2.2, r.2.1) else none)

/-- One cluster of Group.paralog_per_species_statistic: for every species
in the running table, look its frequency up in the cluster dictionary —
cluster.species_frequency[species] raises KeyError (modelled as error) when
the species does not occur in the cluster — and add 1 when it exceeds 1. -/
def paralogStep (c : Cluster) : List (List Char × Nat) → Except Unit (List (List Char × Nat))
  | [] => .ok []
  | p :: ps =>
    match lookupFreq c.species_frequency p.1 with
    | none => .error ()
    | some f => (paralogStep c ps).map (fun rest => (p.1, if 1 < f then p.2 + 1 else p.2) :: rest)

/-- Group.paralog_per_species_statistic: the returned table (written as CSV
by the source) keyed by species_list, over the filtered or the full cluster
collection. -/
def paralog_per_species_statistic (g : Group) (filt : Bool) :
    Except Unit (List (List Char × Nat)) :=
  let clusters := if filt then filteredView g else g.groups
  clusters.foldlM (fun counts c => paralogStep c counts)
    (g.species_list.map (fun sp => (sp, 0)))

/-- Group.retrieve_fasta with an in-memory mapping database (the dict
branch of the isinstance test; the string branch delegates to the external
Alignment reader).  Returns one (file name, records) pair per cluster of
the selected collection; a sequence identifier absent from the database
raises KeyError (modelled as error).  Each record is (species code header,
sequence body). -/
def retrieve_fasta (g : Group) (db : List (List Char × List Char)) (filt : Bool) :
    Except Unit (List (List Char × List (List Char × List Char))) :=
  let clusters := if filt then filteredView g else g.groups
  clusters.mapM (fun c => do
    let recs ← c.sequences.mapM (fun sid =>
      match db.find? (fun p => p.1 == sid) with
      | none => Except.error ()
      | some p => Except.ok (spCode sid, p.2))
    Except.ok (c.name ++ ('.' :: 'f' :: 'a' :: 's' :: []), recs))

/-- class MultiGroups (only the fields the claims touch). -/
structure MultiGroups where
  multiple_groups : List Group
deriving DecidableEq

/-- Python set equality of two identifier lists viewed as sets. -/
def setEqB (a b : List (List Char)) : Bool :=
  a.all (fun x => b.contains x) && b.all (fun x => a.contains x)

/-- MultiGroups.group_overlap.  Raises SystemExit (modelled as error) unless
exactly two Groups are contained; otherwise the counter printed by the
source — the number of clusters of the first group whose set of sequence
identifiers equals some cluster's set in the second group — is modelled as
the returned value. -/
def group_overlap (mg : MultiGroups) : Except Unit Nat :=
  if mg.multiple_groups.length ≠ 2 then .error ()
  else
    match mg.multiple_groups with
    | [g1, g2] =>
      let l2 := g2.groups.map (fun c => c.sequences)
      .ok ((g1.groups.map (fun c => c.sequences)).countP (fun s => l2.any (fun t => setEqB s t)))
    | _ => .error ()

/-! ### Helper lemmas about the string primitives -/

theorem pySplit_ne_nil (sep : Char) (s : List Char) : pySplit sep s ≠ [] := by
  cases s with
  | nil => simp [pySplit]
  | cons a s =>
    simp only [pySplit]
    split <;> simp

theorem two_le_pySplit_length_iff (sep : Char) (s : List Char) :
    2 ≤ (pySplit sep s).length ↔ sep ∈ s := by
  induction s with
  | nil => simp [pySplit]
  | cons a s ih =>
    have hpos : 0 < (pySplit sep s).length :=
      List.length_pos.mpr (pySplit_ne_nil sep s)
    simp only [pySplit, List.mem_cons]
    split
    · next h =>
        subst h
        simp only [List.length_cons, true_or, iff_true]
        omega
    · next h =>
        have hne : ¬ sep = a := fun hh => h hh.symm
        simp only [List.length_cons, List.length_tail, hne, false_or]
        rw [← ih]
        omega

theorem pySplit_headD (sep : Char) (s : List Char) :
    (pySplit sep s).headD [] = s.takeWhile (fun c => c ≠ sep) := by
  induction s with
  | nil => simp [pySplit]
  | cons a s ih =>
    by_cases h : a = sep
    · subst h
      simp [pySplit, List.takeWhile_cons]
    · simp only [pySplit, if_neg h, List.headD_cons]
      rw [List.takeWhile_cons, if_pos (decide_eq_true h)]
      exact congrArg (fun t => a :: t) ih

theorem getElem?_one_of_tail {α : Type} (r : List α) (hr : r ≠ []) :
    r.tail[0]? = r[1]? := by
  cases r with
  | nil => exact absurd rfl hr
  | cons x t => simp

theorem pySplit_getElem_one (sep : Char) (s : List Char) (h : sep ∈ s) :
    (pySplit sep s)[1]? =
      some (((s.dropWhile (fun c => c ≠ sep)).drop 1).takeWhile (fun c => c ≠ sep)) := by
  induction s with
  | nil => cases h
  | cons a s ih =>
    by_cases ha : a = sep
    · subst ha
      have hr := pySplit_ne_nil a s
      simp only [pySplit, if_true, List.getElem?_cons_succ]
      rw [List.dropWhile_cons, if_neg (by simp)]
      simp only [List.drop_succ_cons, List.drop_zero]
      have h0 : (pySplit a s)[0]? = some ((pySplit a s).headD []) := by
        cases hq : pySplit a s with
        | nil => exact absurd hq hr
        | cons x t => simp
      rw [h0, pySplit_headD]
    · have hmem : sep ∈ s := by
        rcases List.mem_cons.mp h with h1 | h1
        · exact absurd h1.symm ha
        · exact h1
      have hr := pySplit_ne_nil sep s
      simp only [pySplit, if_neg ha, List.getElem?_cons_succ]
      rw [List.dropWhile_cons, if_pos (decide_eq_true ha)]
      rw [getElem?_one_of_tail _ hr]
      exact ih hmem

theorem parse_string_eq_of_split (s : List Char) (f0 f1 : List Char) (rest : List (List Char))
    (hq : pySplit ':' s = f0 :: f1 :: rest) :
    parse_string s =
      some { name := pyStrip f0,
             sequences := pySplitWs (pyStrip f1),
             species_frequency := (firstSeen ((pySplitWs (pyStrip f1)).map spCode)).map
               (fun sp => (sp, pyCount (pyStrList (pySplitWs (pyStrip f1))) sp)),
             gene_compliant := none,
             species_compliant := none } := by
  unfold parse_string
  rw [hq]

theorem parse_string_eq_none_of_split (s : List Char) (f0 : List Char)
    (hq : pySplit ':' s = [f0]) :
    parse_string s = none := by
  unfold parse_string
  rw [hq]

/-! ### Claim theorems on Cluster parsing -/

/-- Claim C5 counterexample: the line ": a b" has an empty name portion
(nothing before the colon), yet parse_string accepts it, producing the
empty name — the claim says parsing must fail on such a line. -/
theorem empty_name_parses :
    (parse_string (String.toList ": a b")).map (fun c => c.name) = some [] ∧
    parse_string (String.toList ": a b") ≠ none := by
  constructor
  · rfl
  · decide

/-- Claim C5 (amended): Cluster parsing fails — with an IndexError from
fields[1], there is no FormatError anywhere in the code — exactly for the
lines that contain no colon; a line whose name portion is empty parses
successfully with name set to the empty string. -/
theorem parse_fails_iff_no_colon (s : List Char) :
    parse_string s = none ↔ ¬ (':' ∈ s) := by
  rw [← two_le_pySplit_length_iff]
  constructor
  · intro h hlen
    rcases hq : pySplit ':' s with _ | ⟨f0, _ | ⟨f1, rest⟩⟩
    · exact pySplit_ne_nil ':' s hq
    · rw [hq] at hlen; simp at hlen
    · rw [parse_string_eq_of_split s f0 f1 rest hq] at h; cases h
  · intro h
    rcases hq : pySplit ':' s with _ | ⟨f0, _ | ⟨f1, rest⟩⟩
    · exact absurd hq (pySplit_ne_nil ':' s)
    · exact parse_string_eq_none_of_split s f0 hq
    · exact absurd (by rw [hq]; simp) h

/-- Claim C5 witness: the amended equivalence at two concrete lines, one
without a colon, one with. -/
theorem parse_fails_iff_no_colon_witness :
    (parse_string (String.toList "no colon here") = none ↔
      ¬ (':' ∈ String.toList "no colon here")) ∧
    (parse_string (String.toList "G1: a") = none ↔ ¬ (':' ∈ String.toList "G1: a")) :=
  ⟨parse_fails_iff_no_colon (String.toList "no colon here"),
   parse_fails_iff_no_colon (String.toList "G1: a")⟩

/-- Claim C8: on every line with more than one colon, parsing succeeds
silently; sequences are exactly the whitespace tokens of the text lying
strictly between the first and the second colon (everything after the
second colon is discarded), and the name is the trimmed text before the
first colon. -/
theorem parse_discards_after_second_colon (s : List Char) (h : 2 ≤ s.count ':') :
    (parse_string s).map (fun c => c.sequences) =
      some (pySplitWs (pyStrip
        (((s.dropWhile (fun c => c ≠ ':')).drop 1).takeWhile (fun c => c ≠ ':')))) ∧
    (parse_string s).map (fun c => c.name) =
      some (pyStrip (s.takeWhile (fun c => c ≠ ':'))) := by
  have hmem : ':' ∈ s := by
    by_contra hc
    rw [List.count_eq_zero_of_not_mem hc] at h
    omega
  have h0 := pySplit_headD ':' s
  have h1 := pySplit_getElem_one ':' s hmem
  have hlen := (two_le_pySplit_length_iff ':' s).mpr hmem
  rcases hq : pySplit ':' s with _ | ⟨f0, _ | ⟨f1, rest⟩⟩
  · exact absurd hq (pySplit_ne_nil ':' s)
  · rw [hq] at hlen; simp at hlen
  · rw [hq] at h0 h1
    simp only [List.headD_cons] at h0
    simp only [List.getElem?_cons_succ, List.getElem?_cons_zero, Option.some.injEq] at h1
    rw [parse_string_eq_of_split s f0 f1 rest hq, h0, h1]
    exact ⟨rfl, rfl⟩

/-- Claim C8 witness: the concrete line "G1: a b : junk" at the theorem. -/
theorem parse_discards_after_second_colon_witness :
    (parse_string (String.toList "G1: a b : junk")).map (fun c => c.sequences) =
      some (pySplitWs (pyStrip
        ((((String.toList "G1: a b : junk").dropWhile (fun c => c ≠ ':')).drop 1).takeWhile
          (fun c => c ≠ ':')))) ∧
    (parse_string (String.toList "G1: a b : junk")).map (fun c => c.name) =
      some (pyStrip ((String.toList "G1: a b : junk").takeWhile (fun c => c ≠ ':'))) :=
  parse_discards_after_second_colon _ (by decide)

/-- Claim C1 (code bug): on the line "G1: sp|a sp1|b" the source computes
species_frequency["sp"] = 2, because str(self.sequences).count(species)
counts substring occurrences of the species code in the Python rendering of
the whole sequences list; only one sequence identifier actually has species
code "sp", as the second conjunct shows. -/
theorem species_frequency_substring_count_bug :
    (parse_string (String.toList "G1: sp|a sp1|b")).map
      (fun c => lookupFreq c.species_frequency (String.toList "sp")) = some (some 2) ∧
    (parse_string (String.toList "G1: sp|a sp1|b")).map
      (fun c => c.sequences.countP (fun sid => spCode sid == String.toList "sp")) =
        some 1 := by
  constructor
  · rfl
  · rfl

/-! ### Claims C9 and C10: error-path behaviour -/

/-- Claim C9: apply_filter is not atomic on error.  On a cluster whose
species_frequency is empty, calling it with species_threshold = 0 raises
ValueError from max() — but only after species_compliant has already been
set to True; gene_compliant stays unset on the mutated-so-far state the
error leaves behind. -/
theorem apply_filter_mutates_before_error (c : Cluster) (gt : Int)
    (h1 : c.species_frequency = []) (h2 : c.gene_compliant = none) :
    apply_filter c gt 0 = .error { c with species_compliant := some true } ∧
    ({ c with species_compliant := some true } : Cluster).gene_compliant = none := by
  refine ⟨?_, h2⟩
  unfold apply_filter applyFilterState
  rw [h1]
  simp [listMax]

/-- A cluster with no sequences, as produced by parsing the line "G1:". -/
def emptyCluster : Cluster :=
  { name := ['G', '1'], sequences := [], species_frequency := [],
    gene_compliant := none, species_compliant := none }

/-- Claim C9 witness: the empty cluster at the theorem, with
gene_threshold 7. -/
theorem apply_filter_mutates_before_error_witness :
    apply_filter emptyCluster 7 0 =
      .error { emptyCluster with species_compliant := some true } ∧
    ({ emptyCluster with species_compliant := some true } : Cluster).gene_compliant = none :=
  apply_filter_mutates_before_error emptyCluster 7 rfl rfl

/-- Claim C10: retrieve_fasta called with useFiltered on a Group whose
filtered_groups is empty succeeds silently — no per-cluster output, no
error — with any in-memory mapping database, whereas export_filtered_group
raises OrthoGroupException under the same precondition violation. -/
theorem retrieve_fasta_empty_filtered_silent (g : Group)
    (db : List (List Char × List Char)) (gs : Bool)
    (h : g.filtered_groups = []) :
    retrieve_fasta g db true = .ok [] ∧ export_filtered_group g gs = .error () := by
  constructor
  · unfold retrieve_fasta filteredView
    rw [h]
    rfl
  · unfold export_filtered_group
    rw [h]
    rfl

/-- A Group parsed without thresholds: one cluster, empty filtered_groups. -/
def groupEx10 : Group :=
  (mkGroup [String.toList "G1: sp1|a"] none none).toOption.getD
    { gene_threshold := none, species_threshold := none, groups := [],
      filtered_groups := [], species_list := [] }

/-- Claim C10 witness: the unfiltered one-cluster group at the theorem. -/
theorem retrieve_fasta_empty_filtered_silent_witness :
    retrieve_fasta groupEx10 [] true = .ok [] ∧
    export_filtered_group groupEx10 true = .error () :=
  retrieve_fasta_empty_filtered_silent groupEx10 [] true rfl

/-! ### Claim C3: group overlap -/

theorem setEqB_eq_true_iff (a b : List (List Char)) :
    setEqB a b = true ↔ a.toFinset = b.toFinset := by
  simp only [setEqB, Bool.and_eq_true, List.all_eq_true]
  constructor
  · rintro ⟨h1, h2⟩
    apply Finset.ext
    intro x
    simp only [List.mem_toFinset]
    constructor
    · intro hx
      have := h1 x hx
      simpa using this
    · intro hx
      have := h2 x hx
      simpa using this
  · intro h
    have hx : ∀ x, x ∈ a ↔ x ∈ b := by
      intro x
      have := Finset.ext_iff.mp h x
      simpa [List.mem_toFinset] using this
    constructor
    · intro x hmem
      simpa using (hx x).mp hmem
    · intro x hmem
      simpa using (hx x).mpr hmem

theorem setEqB_eq_decide (a b : List (List Char)) :
    setEqB a b = decide (a.toFinset = b.toFinset) := by
  by_cases h : a.toFinset = b.toFinset
  · rw [decide_eq_true h]
    exact (setEqB_eq_true_iff a b).mpr h
  · rw [decide_eq_false h]
    have hne : ¬ setEqB a b = true := fun hh => h ((setEqB_eq_true_iff a b).mp hh)
    exact Bool.not_eq_true _ ▸ (Bool.eq_false_iff.mpr (fun hh => hne hh))

theorem any_setEqB (c : Cluster) (l : List Cluster) :
    ((l.map (fun c2 => c2.sequences)).any (fun t => setEqB c.sequences t)) =
      l.any (fun c2 => decide (c.sequences.toFinset = c2.sequences.toFinset)) := by
  induction l with
  | nil => rfl
  | cons d l ih => rw [List.map_cons, List.any_cons, setEqB_eq_decide, ih, List.any_cons]

/-- Claim C3: group_overlap exits fatally (SystemExit) unless exactly two
Groups are contained; on Groups g1 and g2 the printed counter — modelled as
the returned value — is the number of clusters of the first group whose set
of sequence identifiers is exactly equal to some cluster's identifier set
in the second group; on two identical Groups this is the total cluster
count of either. -/
theorem group_overlap_spec :
    (∀ g : Group, group_overlap ⟨[g, g]⟩ = .ok g.groups.length) ∧
    (∀ g1 g2 : Group, group_overlap ⟨[g1, g2]⟩ =
      .ok (g1.groups.countP (fun c => g2.groups.any
        (fun c2 => decide (c.sequences.toFinset = c2.sequences.toFinset))))) ∧
    (∀ mg : MultiGroups, mg.multiple_groups.length ≠ 2 → group_overlap mg = .error ()) := by
  have hgen : ∀ g1 g2 : Group, group_overlap ⟨[g1, g2]⟩ =
      .ok (g1.groups.countP (fun c => g2.groups.any
        (fun c2 => decide (c.sequences.toFinset = c2.sequences.toFinset)))) := by
    intro g1 g2
    unfold group_overlap
    rw [if_neg (by simp)]
    show Except.ok _ = _
    congr 1
    rw [List.countP_map]
    apply List.countP_congr
    intro c _
    rw [Function.comp_apply, any_setEqB]
  refine ⟨?_, hgen, ?_⟩
  · intro g
    rw [hgen g g]
    congr 1
    apply List.countP_eq_length.mpr
    intro c hc
    exact List.any_eq_true.mpr ⟨c, hc, by simp⟩
  · intro mg h
    unfold group_overlap
    rw [if_pos h]

/-- The Group with no clusters at all. -/
def emptyGroup : Group :=
  { gene_threshold := none, species_threshold := none, groups := [],
    filtered_groups := [], species_list := [] }

/-- Claim C3 witness: two identical (empty) Groups give the full cluster
count, and a MultiGroups with a single Group exits fatally. -/
theorem group_overlap_spec_witness :
    group_overlap ⟨[emptyGroup, emptyGroup]⟩ = .ok emptyGroup.groups.length ∧
    group_overlap ⟨[emptyGroup]⟩ = .error () :=
  ⟨group_overlap_spec.1 emptyGroup,
   group_overlap_spec.2.2 ⟨[emptyGroup]⟩ (by decide)⟩

/-! ### Claim C6: exporting the filtered group -/

theorem exportFold_spec (cs : List Cluster) (lines0 : List (List Char)) (f0 s0 g0 : Nat) :
    cs.foldl exportStep (lines0, f0, s0, g0) =
      (lines0 ++ ((cs.filter (fun c => pyFlag c.species_compliant &&
          pyFlag c.gene_compliant)).map fmtLine),
       f0 + (cs.filter (fun c => pyFlag c.species_compliant &&
          pyFlag c.gene_compliant)).length,
       s0 + (cs.filter (fun c => pyFlag c.species_compliant)).length,
       g0 + (cs.filter (fun c => pyFlag c.gene_compliant)).length) := by
  induction cs generalizing lines0 f0 s0 g0 with
  | nil => simp
  | cons c cs ih =>
    rw [List.foldl_cons]
    cases hs : pyFlag c.species_compliant <;> cases hg : pyFlag c.gene_compliant <;>
      simp only [exportStep, hs, hg, Bool.and_self, Bool.and_false, Bool.false_and,
        Bool.and_true, Bool.true_and, if_true, if_false, Bool.false_eq_true, ih,
        List.filter_cons, cond_false, cond_true] <;>
      refine Prod.ext ?_ (Prod.ext ?_ (Prod.ext ?_ ?_)) <;>
      simp <;> omega

/-- Claim C6: export_filtered_group fails with OrthoGroupException exactly
when filtered_groups is empty; otherwise it writes one line per doubly
compliant cluster of filtered_groups, in order, formatted as
"name: space-joined sequence identifiers".  The model is a pure function of
the Group, so Group state is left unchanged by construction. -/
theorem export_filtered_group_spec (g : Group) (gs : Bool) :
    (export_filtered_group g gs = .error () ↔ g.filtered_groups = []) ∧
    (∀ lines stats, export_filtered_group g gs = .ok (lines, stats) →
      lines = ((filteredView g).filter
        (fun c => pyFlag c.species_compliant && pyFlag c.gene_compliant)).map fmtLine) := by
  unfold export_filtered_group
  by_cases h : g.filtered_groups.isEmpty
  · rw [if_pos h]
    constructor
    · simp [List.isEmpty_iff.mp h]
    · intro lines stats hok
      cases hok
  · rw [if_neg h]
    constructor
    · constructor
      · intro hok
        cases hok
      · intro hnil
        exact absurd (by rw [hnil]; rfl) h
    · intro lines stats hok
      rw [exportFold_spec] at hok
      injection hok with h1
      rw [Prod.mk.injEq] at h1
      exact h1.1.symm

/-! ### Claims C2 and C7: filtering during construction and the
filtered_groups invariant -/

/-- What apply_filter leaves on a cluster when it returns normally, phrased
on the cluster's own fields. -/
def clusterFilteredP (gt st : Int) (c : Cluster) : Prop :=
  c.species_compliant = some (decide (st ≤ (c.species_frequency.length : Int))) ∧
  ∃ m, listMax (c.species_frequency.map (fun p => p.2)) = some m ∧
    c.gene_compliant = some (decide ((m : Int) ≤ gt))

/-- filtered_groups is exactly the increasing list of indices of doubly
compliant clusters. -/
def exactFiltered (g : Group) : Prop :=
  g.filtered_groups = (List.range g.groups.length).filter (fun i => bothCompliantIdx g i)

theorem parse_string_flags (s : List Char) (c : Cluster) (h : parse_string s = some c) :
    c.species_compliant = none ∧ c.gene_compliant = none := by
  unfold parse_string at h
  rcases hq : pySplit ':' s with _ | ⟨f0, _ | ⟨f1, rest⟩⟩ <;> rw [hq] at h
  · cases h
  · cases h
  · injection h with h
    subst h
    exact ⟨rfl, rfl⟩

theorem apply_filter_ok_spec (c c' : Cluster) (gt st : Int)
    (h : apply_filter c gt st = .ok c') :
    c'.species_frequency = c.species_frequency ∧ clusterFilteredP gt st c' := by
  unfold apply_filter at h
  by_cases he : c.species_frequency.isEmpty
  · rw [if_pos he] at h
    cases h
  · rw [if_neg he] at h
    injection h with h
    subst h
    obtain ⟨m, hm⟩ : ∃ m, listMax (c.species_frequency.map (fun p => p.2)) = some m := by
      cases hq : c.species_frequency with
      | nil => exact absurd (by rw [hq]; rfl) he
      | cons p ps => exact ⟨_, rfl⟩
    unfold applyFilterState
    rw [hm]
    exact ⟨rfl, rfl, m, hm, rfl⟩

theorem addLine_ok_spec (g g' : Group) (line : List Char) (h : addLine g line = .ok g') :
    g'.gene_threshold = g.gene_threshold ∧
    g'.species_threshold = g.species_threshold ∧
    ∃ c0, parse_string line = some c0 ∧
      ((pyTruthy g.species_threshold && pyTruthy g.gene_threshold) = true →
        ∃ c1, apply_filter c0 (g.gene_threshold.getD 0) (g.species_threshold.getD 0) =
            .ok c1 ∧
          g'.groups = g.groups ++ [c1] ∧
          g'.filtered_groups = g.filtered_groups ++
            (if (pyFlag c1.species_compliant && pyFlag c1.gene_compliant) = true
             then [g.groups.length] else [])) ∧
      ((pyTruthy g.species_threshold && pyTruthy g.gene_threshold) = false →
        g'.groups = g.groups ++ [c0] ∧ g'.filtered_groups = g.filtered_groups) := by
  unfold addLine at h
  split at h
  · cases h
  · next c0 hp =>
    dsimp only [] at h
    split at h
    · next htr =>
      split at h
      · cases h
      · next c1 ha =>
        split at h
        · next hb =>
          injection h with h
          subst h
          refine ⟨rfl, rfl, c0, hp, fun _ => ⟨c1, ha, rfl, ?_⟩,
            fun hc => by rw [hc] at htr; cases htr⟩
          rw [if_pos hb]
        · next hb =>
          injection h with h
          subst h
          refine ⟨rfl, rfl, c0, hp, fun _ => ⟨c1, ha, rfl, ?_⟩,
            fun hc => by rw [hc] at htr; cases htr⟩
          rw [if_neg hb, List.append_nil]
    · next htr =>
      injection h with h
      subst h
      exact ⟨rfl, rfl, c0, hp, fun hc => absurd hc htr, fun _ => ⟨rfl, rfl⟩⟩

theorem foldlM_addLine_invariant (P : Group → Prop)
    (hstep : ∀ g line g', P g → addLine g line = .ok g' → P g')
    (lines : List (List Char)) (g g' : Group)
    (hP : P g) (h : List.foldlM addLine g lines = .ok g') : P g' := by
  induction lines generalizing g with
  | nil =>
    have h' : (Except.ok g : Except Unit Group) = .ok g' := h
    injection h' with h'
    subst h'
    exact hP
  | cons l ls ih =>
    rw [List.foldlM_cons] at h
    cases ha : addLine g l with
    | error e =>
      rw [ha] at h
      have h' : (Except.error e : Except Unit Group) = .ok g' := h
      cases h'
    | ok g1 =>
      rw [ha] at h
      exact ih g1 (hstep g l g1 hP ha) h

theorem bothCompliantIdx_eq_of_getElem (g g' : Group) (i : Nat)
    (h : g'.groups[i]? = g.groups[i]?) :
    bothCompliantIdx g' i = bothCompliantIdx g i := by
  unfold bothCompliantIdx
  rw [h]

theorem exactFiltered_step (g g' : Group) (c1 : Cluster)
    (hg : g'.groups = g.groups ++ [c1])
    (hf : g'.filtered_groups = g.filtered_groups ++
      (if (pyFlag c1.species_compliant && pyFlag c1.gene_compliant) = true
       then [g.groups.length] else []))
    (hex : exactFiltered g) : exactFiltered g' := by
  unfold exactFiltered at *
  rw [hf, hex]
  have hlen : g'.groups.length = g.groups.length + 1 := by rw [hg]; simp
  rw [hlen, List.range_succ, List.filter_append]
  congr 1
  · apply List.filter_congr
    intro i hi
    exact (bothCompliantIdx_eq_of_getElem g g' i
      (by rw [hg]; exact List.getElem?_append_left (List.mem_range.mp hi))).symm
  · have hgetlast : (g.groups ++ [c1])[g.groups.length]? = some c1 := by
      rw [List.getElem?_append_right (Nat.le_refl _)]
      simp
    have hlast : bothCompliantIdx g' g.groups.length =
        (pyFlag c1.species_compliant && pyFlag c1.gene_compliant) := by
      unfold bothCompliantIdx
      rw [hg, hgetlast]
    cases hb : (pyFlag c1.species_compliant && pyFlag c1.gene_compliant) with
    | true =>
      rw [if_pos rfl, List.filter_cons, List.filter_nil]
      rw [hlast, hb]
      rfl
    | false =>
      rw [if_neg (by simp), List.filter_cons, List.filter_nil]
      rw [hlast, hb]
      rfl

/-- The invariant carried through Group.__parse_groups. -/
def GInv (gto sto : Option Int) (g : Group) : Prop :=
  g.gene_threshold = gto ∧ g.species_threshold = sto ∧
  ((pyTruthy sto && pyTruthy gto) = true →
    ∀ c ∈ g.groups, clusterFilteredP (gto.getD 0) (sto.getD 0) c) ∧
  ((pyTruthy sto && pyTruthy gto) = false →
    (∀ c ∈ g.groups, c.species_compliant = none ∧ c.gene_compliant = none) ∧
    g.filtered_groups = []) ∧
  exactFiltered g

theorem addLine_preserves_GInv (gto sto : Option Int) (gx : Group) (line : List Char)
    (gx' : Group) (hP : GInv gto sto gx) (h : addLine gx line = .ok gx') :
    GInv gto sto gx' := by
  obtain ⟨h1, h2, h3, h4, h5⟩ := hP
  obtain ⟨hgt, hst, c0, hp, htru, hfls⟩ := addLine_ok_spec gx gx' line h
  have hcond : (pyTruthy gx.species_threshold && pyTruthy gx.gene_threshold) =
      (pyTruthy sto && pyTruthy gto) := by rw [h1, h2]
  refine ⟨hgt.trans h1, hst.trans h2, ?_, ?_, ?_⟩
  · intro htr
    obtain ⟨c1, ha, hg, hf⟩ := htru (hcond.trans htr)
    have hc1 := apply_filter_ok_spec c0 c1 _ _ ha
    intro c hc
    rw [hg] at hc
    rcases List.mem_append.mp hc with hcl | hcr
    · exact h3 htr c hcl
    · rw [List.mem_singleton.mp hcr]
      rw [h1, h2] at hc1
      exact hc1.2
  · intro htr
    obtain ⟨hg, hf⟩ := hfls (hcond.trans htr)
    obtain ⟨hold, hfe⟩ := h4 htr
    have hc0 := parse_string_flags line c0 hp
    constructor
    · intro c hc
      rw [hg] at hc
      rcases List.mem_append.mp hc with hcl | hcr
      · exact hold c hcl
      · rw [List.mem_singleton.mp hcr]
        exact hc0
    · rw [hf, hfe]
  · rcases htr : (pyTruthy gx.species_threshold && pyTruthy gx.gene_threshold) with _ | _
    · obtain ⟨hg, hf⟩ := hfls htr
      have hc0 := parse_string_flags line c0 hp
      have hite : (if (pyFlag c0.species_compliant && pyFlag c0.gene_compliant) = true
          then [gx.groups.length] else ([] : List Nat)) = [] := by
        rw [hc0.1]
        rfl
      exact exactFiltered_step gx gx' c0 hg (by rw [hf, hite, List.append_nil]) h5
    · obtain ⟨c1, ha, hg, hf⟩ := htru htr
      exact exactFiltered_step gx gx' c1 hg hf h5

theorem mkGroup_inv (lines : List (List Char)) (gto sto : Option Int) (g : Group)
    (h : mkGroup lines gto sto = .ok g) : GInv gto sto g := by
  unfold mkGroup at h
  refine foldlM_addLine_invariant (GInv gto sto)
    (fun gx line gx' => addLine_preserves_GInv gto sto gx line gx') lines _ g ?_ h
  refine ⟨rfl, rfl, ?_, ?_, ?_⟩
  · intro _ c hc
    cases hc
  · intro _
    exact ⟨fun c hc => absurd hc (List.not_mem_nil c), rfl⟩
  · rfl

/-- Claim C2 counterexample: constructing a Group with both thresholds
supplied as 0 does not apply the filter at all — the parsed cluster's
compliance flags stay None and filtered_groups stays empty — because 0 is
falsy in the source's condition `if self.species_threshold and
self.gene_threshold`.  The claim requires the flags to be set. -/
theorem zero_threshold_not_filtered :
    (mkGroup [String.toList "G1: sp1|a"] (some 0) (some 0)).map
      (fun g => (g.groups.map (fun c => (c.species_compliant, c.gene_compliant)),
                 g.filtered_groups)) = .ok ([(none, none)], []) := by
  rfl

/-- Claim C2 (amended): when both thresholds are supplied and nonzero
(truthy), the filter is applied to every cluster during parsing — each
cluster carries the apply_filter verdict for these thresholds — and
filtered_groups is exactly the increasing sequence of indices of the doubly
compliant clusters, i.e. the compliant clusters in encounter order; when
either threshold is absent or zero, no compliance flag is ever set and
filtered_groups stays empty. -/
theorem mkGroup_filtering (lines : List (List Char)) (gto sto : Option Int) (g : Group)
    (h : mkGroup lines gto sto = .ok g) :
    ((pyTruthy sto && pyTruthy gto) = true →
      (∀ c ∈ g.groups, clusterFilteredP (gto.getD 0) (sto.getD 0) c) ∧
      g.filtered_groups = (List.range g.groups.length).filter
        (fun i => bothCompliantIdx g i)) ∧
    ((pyTruthy sto && pyTruthy gto) = false →
      (∀ c ∈ g.groups, c.species_compliant = none ∧ c.gene_compliant = none) ∧
      g.filtered_groups = []) := by
  obtain ⟨h1, h2, h3, h4, h5⟩ := mkGroup_inv lines gto sto g h
  exact ⟨fun htr => ⟨h3 htr, h5⟩, h4⟩

/-- Lines of a two-cluster groups file used by several witnesses. -/
def exampleLines : List (List Char) :=
  [String.toList "G1: sp1|a", String.toList "G2: sp1|x sp1|y"]

/-- The Group parsed from exampleLines with thresholds (1, 1): the first
cluster is doubly compliant, the second fails the gene threshold. -/
def groupEx : Group :=
  (mkGroup exampleLines (some 1) (some 1)).toOption.getD emptyGroup

/-- Claim C2 witness: the filtering conclusions at the concrete group,
instantiated on its first cluster. -/
theorem mkGroup_filtering_witness :
    clusterFilteredP 1 1 (groupEx.groups.headD emptyCluster) ∧
    groupEx.filtered_groups = (List.range groupEx.groups.length).filter
      (fun i => bothCompliantIdx groupEx i) :=
  ⟨((mkGroup_filtering exampleLines (some 1) (some 1) groupEx rfl).1 rfl).1
      (groupEx.groups.headD emptyCluster) (by decide),
   ((mkGroup_filtering exampleLines (some 1) (some 1) groupEx rfl).1 rfl).2⟩

theorem filterMap_getElem_shift {α : Type} (a : α) (l : List α) (idxs : List Nat)
    (h : ∀ j ∈ idxs, 0 < j) :
    idxs.filterMap (fun i => (a :: l)[i]?) =
      (idxs.map (fun i => i - 1)).filterMap (fun i => l[i]?) := by
  induction idxs with
  | nil => rfl
  | cons j t ih =>
    have hj : 0 < j := h j (List.mem_cons_self j t)
    obtain ⟨k, rfl⟩ : ∃ k, j = k + 1 := ⟨j - 1, by omega⟩
    have hht : ∀ j ∈ t, 0 < j := fun j hj => h j (List.mem_cons_of_mem _ hj)
    simp only [List.map_cons, List.filterMap_cons, List.getElem?_cons_succ,
      Nat.add_sub_cancel]
    rw [ih hht]

theorem filterMap_getElem_nil {α : Type} (idxs : List Nat) :
    idxs.filterMap (fun i => ([] : List α)[i]?) = [] := by
  induction idxs with
  | nil => rfl
  | cons j t ih =>
    rw [List.filterMap_cons]
    exact ih

theorem selection_sublist {α : Type} (l : List α) :
    ∀ idxs : List Nat, idxs.Pairwise (· < ·) →
      List.Sublist (idxs.filterMap (fun i => l[i]?)) l := by
  induction l with
  | nil =>
    intro idxs _
    rw [filterMap_getElem_nil]
  | cons a l ih =>
    intro idxs hp
    match idxs with
    | [] => exact List.nil_sublist _
    | 0 :: t =>
      have hpc := List.pairwise_cons.mp hp
      have hpos : ∀ j ∈ t, 0 < j := hpc.1
      simp only [List.filterMap_cons, List.getElem?_cons_zero]
      rw [filterMap_getElem_shift a l t hpos]
      refine List.Sublist.cons₂ a (ih _ ?_)
      rw [List.pairwise_map]
      exact hpc.2.imp_of_mem (fun hx hy hlt => by
        have := hpos _ hx
        omega)
    | (k + 1) :: t =>
      have hpc := List.pairwise_cons.mp hp
      have hpos : ∀ j ∈ (k + 1) :: t, 0 < j := by
        intro j hj
        rcases List.mem_cons.mp hj with h1 | h1
        · omega
        · have := hpc.1 j h1
          omega
      rw [filterMap_getElem_shift a l _ hpos]
      refine List.Sublist.cons a (ih _ ?_)
      rw [List.pairwise_map]
      refine hp.imp_of_mem (fun hx hy hlt => by
        have := hpos _ hx
        omega)

/-- Structural soundness of the index list: strictly increasing and (what
the sublist conclusion needs) pairwise-sorted. -/
def sfInv (g : Group) : Prop :=
  g.filtered_groups.Pairwise (· < ·)

theorem sfInv_of_exactFiltered (g : Group) (h : exactFiltered g) : sfInv g := by
  unfold sfInv
  rw [h]
  exact (List.pairwise_lt_range _).filter _

theorem sfInv_gstep (g : Group) (op : GOp) (h : sfInv g) : sfInv (gstep g op) := by
  cases op with
  | applyFilter i gt st =>
    show sfInv (match g.groups[i]? with
      | none => g
      | some c => { g with groups := g.groups.set i (applyFilterState c gt st) })
    cases g.groups[i]? with
    | none => exact h
    | some c => exact h
  | updateFiltered =>
    exact (List.pairwise_lt_range _).filter _

theorem sfInv_foldl_gstep (g : Group) (ops : List GOp) (h : sfInv g) :
    sfInv (ops.foldl gstep g) := by
  induction ops generalizing g with
  | nil => exact h
  | cons op ops ih =>
    rw [List.foldl_cons]
    exact ih _ (sfInv_gstep g op h)

/-- Claim C7 counterexample: construct a Group from "G1: sp1|a" with
thresholds (1, 1): its only cluster is doubly compliant and
filtered_groups = [0].  Calling apply_filter(0, 5) on that cluster (an
operation the claim quantifies over) leaves filtered_groups = [0] while the
cluster is no longer doubly compliant, so filtered_groups does not contain
exactly the clusters whose two compliance flags are true. -/
def groupEx7 : Group :=
  (mkGroup [String.toList "G1: sp1|a"] (some 1) (some 1)).toOption.getD emptyGroup

theorem filtered_not_exact_after_apply_filter :
    (gstep groupEx7 (GOp.applyFilter 0 0 5)).filtered_groups = [0] ∧
    bothCompliantIdx (gstep groupEx7 (GOp.applyFilter 0 0 5)) 0 = false := by
  constructor
  · rfl
  · rfl

/-- Claim C7 (amended): for a Group built by parsing (with or without
thresholds) and any sequence of apply_filter / update_filtered_group
operations, filtered_groups always references a subsequence of groups in
the same relative order; it contains exactly the doubly compliant clusters
immediately after construction and immediately after any sequence ending
in update_filtered_group, but an apply_filter call can invalidate that
exactness until the next update_filtered_group. -/
theorem filtered_subsequence_invariant (lines : List (List Char)) (gto sto : Option Int)
    (g : Group) (h : mkGroup lines gto sto = .ok g) (ops : List GOp) :
    List.Sublist (filteredView (ops.foldl gstep g)) (ops.foldl gstep g).groups ∧
    exactFiltered g ∧
    exactFiltered ((ops ++ [GOp.updateFiltered]).foldl gstep g) := by
  have hex : exactFiltered g := (mkGroup_inv lines gto sto g h).2.2.2.2
  refine ⟨?_, hex, ?_⟩
  · have hsf : sfInv (ops.foldl gstep g) := sfInv_foldl_gstep g ops (sfInv_of_exactFiltered g hex)
    exact selection_sublist _ _ hsf
  · rw [List.foldl_append]
    unfold exactFiltered gstep
    rfl

/-- Claim C7 witness: the invariant at the concrete group of exampleLines
with thresholds (1, 1), under the operation sequence
[apply_filter(0, 5) on cluster 0]. -/
theorem filtered_subsequence_invariant_witness :
    List.Sublist (filteredView ([GOp.applyFilter 0 0 5].foldl gstep groupEx))
      ([GOp.applyFilter 0 0 5].foldl gstep groupEx).groups ∧
    exactFiltered groupEx ∧
    exactFiltered (([GOp.applyFilter 0 0 5] ++ [GOp.updateFiltered]).foldl gstep groupEx) :=
  filtered_subsequence_invariant exampleLines (some 1) (some 1) groupEx rfl
    [GOp.applyFilter 0 0 5]

/-- Claim C6 witness: the export conclusion at the concrete filtered group
(groupEx exports exactly its first cluster's line). -/
theorem export_filtered_group_spec_witness :
    [String.toList "G1: sp1|a"] = ((filteredView groupEx).filter
      (fun c => pyFlag c.species_compliant && pyFlag c.gene_compliant)).map fmtLine :=
  (export_filtered_group_spec groupEx false).2 [String.toList "G1: sp1|a"] none rfl

/-! ### Claim C4: the paralog-per-species statistic -/

theorem paralogStep_ok (c : Cluster) (sps : List (List Char)) (f : List Char → Nat)
    (h : ∀ sp ∈ sps, lookupFreq c.species_frequency sp ≠ none) :
    paralogStep c (sps.map (fun sp => (sp, f sp))) =
      .ok (sps.map (fun sp => (sp, f sp +
        (if 1 < (lookupFreq c.species_frequency sp).getD 0 then 1 else 0)))) := by
  induction sps with
  | nil => rfl
  | cons sp sps ih =>
    obtain ⟨v, hv⟩ : ∃ v, lookupFreq c.species_frequency sp = some v := by
      cases hq : lookupFreq c.species_frequency sp with
      | none => exact absurd hq (h sp (List.mem_cons_self sp sps))
      | some v => exact ⟨v, rfl⟩
    have ihh := ih (fun sp hsp => h sp (List.mem_cons_of_mem _ hsp))
    simp only [List.map_cons]
    show (match lookupFreq c.species_frequency sp with
      | none => Except.error ()
      | some fr => (paralogStep c (sps.map (fun sp => (sp, f sp)))).map
          (fun rest => (sp, if 1 < fr then f sp + 1 else f sp) :: rest)) = _
    rw [hv, ihh]
    show Except.ok _ = Except.ok _
    congr 1
    dsimp only
    refine congrArg₂ List.cons (congrArg (Prod.mk sp) ?_) rfl
    rw [Option.getD_some]
    by_cases h1 : 1 < v
    · rw [if_pos h1, if_pos h1]
    · rw [if_neg h1, if_neg h1, Nat.add_zero]

theorem paralog_fold (cs : List Cluster) (sps : List (List Char)) (f : List Char → Nat)
    (h : ∀ c ∈ cs, ∀ sp ∈ sps, lookupFreq c.species_frequency sp ≠ none) :
    cs.foldlM (fun counts c => paralogStep c counts) (sps.map (fun sp => (sp, f sp))) =
      .ok (sps.map (fun sp => (sp, f sp + cs.countP
        (fun c => decide (1 < (lookupFreq c.species_frequency sp).getD 0))))) := by
  induction cs generalizing f with
  | nil =>
    simp only [List.foldlM_nil, List.countP_nil, Nat.add_zero]
    rfl
  | cons c cs ih =>
    rw [List.foldlM_cons,
      paralogStep_ok c sps f (fun sp hsp => h c (List.mem_cons_self c cs) sp hsp)]
    have ihh := ih
      (fun sp => f sp + (if 1 < (lookupFreq c.species_frequency sp).getD 0 then 1 else 0))
      (fun c' hc' sp hsp => h c' (List.mem_cons_of_mem _ hc') sp hsp)
    refine Eq.trans (by exact ihh) ?_
    congr 1
    apply List.map_congr_left
    intro sp _
    dsimp only
    rw [Prod.mk.injEq]
    refine ⟨rfl, ?_⟩
    rw [List.countP_cons]
    by_cases h1 : 1 < (lookupFreq c.species_frequency sp).getD 0
    · rw [if_pos h1, if_pos (decide_eq_true h1)]
      omega
    · rw [if_neg h1, if_neg (by simp [h1])]
      omega

/-- Claim C4 counterexample: a Group with clusters "G1: A|x" and "G2: B|y"
and no thresholds.  species_list is [A, B], but cluster G1 has no frequency
entry for B, so paralog_per_species_statistic raises KeyError — the claim
says it returns normally with a count-0 contribution. -/
theorem paralog_missing_species_keyerror :
    (mkGroup [String.toList "G1: A|x", String.toList "G2: B|y"] none none).map
      (fun g => paralog_per_species_statistic g false) = .ok (.error ()) := by
  rfl

/-- Claim C4 (amended): provided every species of species_list has a
frequency entry in every cluster of the selected collection,
paralog_per_species_statistic returns, for each species of species_list,
the number of selected clusters whose frequency for that species exceeds 1;
when some species is missing from some selected cluster the source instead
raises KeyError (dict indexing), as the counterexample shows. -/
theorem paralog_per_species_count (g : Group) (filt : Bool)
    (h : ∀ c ∈ (if filt then filteredView g else g.groups), ∀ sp ∈ g.species_list,
      lookupFreq c.species_frequency sp ≠ none) :
    paralog_per_species_statistic g filt =
      .ok (g.species_list.map (fun sp =>
        (sp, (if filt then filteredView g else g.groups).countP
          (fun c => decide (1 < (lookupFreq c.species_frequency sp).getD 0))))) := by
  unfold paralog_per_species_statistic
  have hfold := paralog_fold (if filt then filteredView g else g.groups)
    g.species_list (fun _ => 0) h
  refine Eq.trans (by exact hfold) ?_
  congr 1
  apply List.map_congr_left
  intro sp _
  rw [Nat.zero_add]

/-- A Group in which every species occurs in every cluster. -/
def groupEx4 : Group :=
  Option.getD
    (Except.toOption
      (mkGroup [String.toList "G1: A|x A|y B|z", String.toList "G2: B|y A|h"] none none))
    emptyGroup

/-- Claim C4 witness: the amended statistic at the concrete group (species
A has one paralog cluster, species B none). -/
theorem paralog_per_species_count_witness :
    paralog_per_species_statistic groupEx4 false =
      .ok (groupEx4.species_list.map (fun sp =>
        (sp, groupEx4.groups.countP
          (fun c => decide (1 < (lookupFreq c.species_frequency sp).getD 0))))) :=
  paralog_per_species_count groupEx4 false (by decide)

end Orthomcl
